import Mathlib

/-!
Shallow embedding of the `unicli` command-line client (nscaledev/unicli) for
verifying its specification claims.

The program is a thin fetch-filter-join-render layer over a Kubernetes-style
control-plane store.  We model the store as lists of typed resources, label
sets as association lists, and each command `execute` function as an explicit
state-passing function from the store.  Read operations (`List`, `Get`) return
the store unchanged; write operations (`Create`) append to it, mirroring the
controller-runtime client used by the source.
-/

set_option linter.unusedVariables false

namespace Unicli

/-- Label keys from the external `unikorn-cloud/core` constants package.
Only their identity matters to the claims; the literal values follow the
upstream constants. -/
def nameLabel : String := "unikorn-cloud.org/name"

/-- Organization-ID label key (`constants.OrganizationLabel`). -/
def organizationLabel : String := "unikorn-cloud.org/organization-id"

/-- Project-ID label key (`constants.ProjectLabel`). -/
def projectLabel : String := "unikorn-cloud.org/project-id"

/-- Region-ID label key (`regionconstants.RegionLabel`). -/
def regionLabel : String := "region.unikorn-cloud.org/region-id"

/-- Description annotation key (`constants.DescriptionAnnotation`). -/
def descriptionKey : String := "unikorn-cloud.org/description"

/-- A Kubernetes label set (`labels.Set` / `map[string]string`): an
association list with unique keys; the first binding for a key wins. -/
abbrev Labels := List (String × String)

/-- Look up a label key, `none` when absent (Go `Has`/two-valued map read). -/
def lookupLabel (ls : Labels) (k : String) : Option String :=
  (ls.find? (fun kv => kv.1 == k)).map (·.2)

/-- Go one-valued map read `m[k]`: the zero value `""` when the key is absent. -/
def labelValue (ls : Labels) (k : String) : String :=
  (lookupLabel ls k).getD ""

/-- `labels.SelectorFromSet sel` matching: every required key must be present
with exactly the required value. -/
def selMatches (sel : Labels) (ls : Labels) : Bool :=
  sel.all fun kv => lookupLabel ls kv.1 == some kv.2

/-- controller-runtime `ListOptions.Namespace`: the empty string means all
namespaces. -/
def nsMatches (optNs resourceNs : String) : Bool :=
  optNs == "" || optNs == resourceNs

/-- `strings.TrimPrefix`. -/
def trimPrefix (s pre : String) : String :=
  if pre.isPrefixOf s then s.drop pre.length else s

/-- String-keyed map built Go-style; `mapGet` reads with zero-value default.
Entries are prepended so that the first entry found is the last one written,
matching Go map overwrite semantics. -/
def mapGet (m : List (String × String)) (k : String) : String :=
  ((m.find? (fun kv => kv.1 == k)).map (·.2)).getD ""

/-- Whether a Go map contains a key (`_, ok := m[k]`). -/
def mapHas (m : List (String × String)) (k : String) : Bool :=
  (m.find? (fun kv => kv.1 == k)).isSome

/-! ## Resource types -/

/-- A `corev1.Namespace` (only its name is used). -/
structure Namespace where
  name : String
  deriving Repr, DecidableEq

/-- A `kubernetesv1.ClusterManager`. -/
structure ClusterManager where
  name : String
  namespc : String
  labels : Labels
  /-- `Status.Conditions[i].Reason`, in order. -/
  conditionReasons : List String
  deriving Repr, DecidableEq

/-- A `kubernetesv1.KubernetesCluster` (fields the claims need). -/
structure KubernetesCluster where
  name : String
  namespc : String
  labels : Labels
  clusterManagerID : String
  deriving Repr, DecidableEq

/-- An `identityv1.Organization`. -/
structure Organization where
  name : String
  namespc : String
  labels : Labels
  /-- `Status.Namespace`. -/
  statusNamespace : String
  deriving Repr, DecidableEq

/-- An `identityv1.Project`. -/
structure Project where
  name : String
  namespc : String
  labels : Labels
  statusNamespace : String
  deriving Repr, DecidableEq

/-- GPU block of a `regionv1.FlavorMetadata`. -/
structure GPUMeta where
  physicalCount : Nat
  vendor : String
  model : String
  deriving Repr, DecidableEq

/-- A `regionv1.FlavorMetadata`.  The memory quantity is modelled by its
rendered form (`fm.Memory.String()` is external serialization). -/
structure FlavorMetadata where
  id : String
  cpuCount : Option Nat
  memory : Option String
  gpu : Option GPUMeta
  deriving Repr, DecidableEq

/-- A `regionv1.Region` (name, labels and the flavor metadata of
`Spec.Openstack.Compute.Flavors`; `none` when any pointer on that path is nil). -/
structure Region where
  name : String
  namespc : String
  labels : Labels
  flavors : Option (List FlavorMetadata)
  deriving Repr, DecidableEq

/-- A `computev1.ComputeInstance`. -/
structure ComputeInstance where
  name : String
  namespc : String
  labels : Labels
  flavorID : String
  imageID : String
  conditionReasons : List String
  deriving Repr, DecidableEq

/-- A `regionv1.OpenstackIdentity`. -/
structure OpenstackIdentity where
  name : String
  namespc : String
  labels : Labels
  sshPrivateKey : String
  deriving Repr, DecidableEq

/-- An `identityv1.User`. -/
structure User where
  name : String
  namespc : String
  subject : String
  deriving Repr, DecidableEq

/-- An `identityv1.Role`. -/
structure Role where
  name : String
  namespc : String
  labels : Labels
  deriving Repr, DecidableEq

/-- An `identityv1.Group`. -/
structure Group where
  name : String
  namespc : String
  labels : Labels
  annotations : Labels
  roleIDs : List String
  userIDs : List String
  deriving Repr, DecidableEq

/-- The control-plane store: every resource kind the embedded commands touch. -/
structure Store where
  namespaces : List Namespace
  clusterManagers : List ClusterManager
  kubernetesClusters : List KubernetesCluster
  organizations : List Organization
  projects : List Project
  regions : List Region
  computeInstances : List ComputeInstance
  openstackIdentities : List OpenstackIdentity
  users : List User
  roles : List Role
  groups : List Group
  deriving Repr, DecidableEq

/-- Errors surfaced by commands.  `panicked` stands for a Go runtime panic
(out-of-range index), `timeout` for the command context's deadline. -/
inductive Err where
  | validation (msg : String)
  | resource (msg : String)
  | panicked (msg : String)
  | timeout
  deriving Repr, DecidableEq

/-! ## Client operations

Each controller-runtime client call in the source becomes one of these
functions.  Reads return the store unchanged alongside their result; writes
return an updated store. -/

/-- `cli.List(ctx, &corev1.NamespaceList{})`. -/
def listNamespacesOp (s : Store) : List Namespace × Store :=
  (s.namespaces, s)

/-- `cli.List(ctx, &kubernetesv1.ClusterManagerList{}, opts)` with a namespace
and a set-based label selector. -/
def listClusterManagersOp (s : Store) (ns : String) (sel : Labels) :
    List ClusterManager × Store :=
  (s.clusterManagers.filter fun m => nsMatches ns m.namespc && selMatches sel m.labels, s)

/-- `cli.List(ctx, &kubernetesv1.KubernetesClusterList{}, opts)`. -/
def listKubernetesClustersOp (s : Store) (ns : String) (sel : Labels) :
    List KubernetesCluster × Store :=
  (s.kubernetesClusters.filter fun c => nsMatches ns c.namespc && selMatches sel c.labels, s)

/-- `cli.List(ctx, &identityv1.OrganizationList{}, opts)`. -/
def listOrganizationsOp (s : Store) (ns : String) (sel : Labels) :
    List Organization × Store :=
  (s.organizations.filter fun o => nsMatches ns o.namespc && selMatches sel o.labels, s)

/-- `cli.List(ctx, &identityv1.ProjectList{}, opts)`. -/
def listProjectsOp (s : Store) (ns : String) (sel : Labels) :
    List Project × Store :=
  (s.projects.filter fun p => nsMatches ns p.namespc && selMatches sel p.labels, s)

/-- `cli.List(ctx, &regionv1.RegionList{}, opts)`. -/
def listRegionsOp (s : Store) (ns : String) : List Region × Store :=
  (s.regions.filter fun r => nsMatches ns r.namespc, s)

/-- `cli.List(ctx, &computev1.ComputeInstanceList{}, opts)`. -/
def listComputeInstancesOp (s : Store) (ns : String) (sel : Labels) :
    List ComputeInstance × Store :=
  (s.computeInstances.filter fun c => nsMatches ns c.namespc && selMatches sel c.labels, s)

/-- `cli.List(ctx, &regionv1.OpenstackIdentityList{}, opts)`. -/
def listOpenstackIdentitiesOp (s : Store) (ns : String) :
    List OpenstackIdentity × Store :=
  (s.openstackIdentities.filter fun i => nsMatches ns i.namespc, s)

/-- `cli.List(ctx, &identityv1.UserList{}, opts)`. -/
def listUsersOp (s : Store) (ns : String) : List User × Store :=
  (s.users.filter fun u => nsMatches ns u.namespc, s)

/-- `cli.List(ctx, &identityv1.RoleList{}, opts)`. -/
def listRolesOp (s : Store) (ns : String) : List Role × Store :=
  (s.roles.filter fun r => nsMatches ns r.namespc, s)

/-- `cli.List(ctx, &identityv1.GroupList{}, opts)`. -/
def listGroupsOp (s : Store) (ns : String) (sel : Labels) : List Group × Store :=
  (s.groups.filter fun g => nsMatches ns g.namespc && selMatches sel g.labels, s)

/-- `cli.Create(ctx, group)`. -/
def createGroupOp (s : Store) (g : Group) : Unit × Store :=
  ((), { s with groups := s.groups ++ [g] })

/-- `cli.Create(ctx, organization)`. -/
def createOrganizationOp (s : Store) (o : Organization) : Unit × Store :=
  ((), { s with organizations := s.organizations ++ [o] })

/-! ## `pkg/util` lookups -/

/-- `util.GetOrganization` (`pkg/util/util.go`): list organizations in the
identity namespace whose name label equals the requested name; error unless
there is exactly one and its `Status.Namespace` is non-empty. -/
def GetOrganization (s : Store) (ns organizationName : String) :
    Except Err Organization :=
  let items := (listOrganizationsOp s ns [(nameLabel, organizationName)]).1
  match items with
  | [org] =>
      if org.statusNamespace == "" then
        .error (.validation "unable to find organization namespace")
      else
        .ok org
  | _ => .error (.validation ("unable to find organization with name " ++ organizationName))

/-- The list `util.GetOrganization` filters on: organizations of the identity
namespace whose `constants.NameLabel` label equals the requested name. -/
def matchingOrganizations (s : Store) (ns organizationName : String) :
    List Organization :=
  s.organizations.filter fun o =>
    nsMatches ns o.namespc && selMatches [(nameLabel, organizationName)] o.labels

/-- `util.CreateOrganizationNameMap`: list the identity namespace's
organizations and map each ID (resource name) to its display-name label.
Entries are prepended so a later duplicate key overwrites an earlier one. -/
def CreateOrganizationNameMap (s : Store) (ns : String) :
    List (String × String) × Store :=
  let p := listOrganizationsOp s ns []
  (p.1.foldl (fun m o => (o.name, labelValue o.labels nameLabel) :: m) [], p.2)

/-- `util.CreateProjectNameMap`: map each project ID to its display name. -/
def CreateProjectNameMap (s : Store) : List (String × String) × Store :=
  let p := listProjectsOp s "" []
  (p.1.foldl (fun m o => (o.name, labelValue o.labels nameLabel) :: m) [], p.2)

/-- The repeated rendering idiom `x := m[id]; if x == "" { x = id }`:
fall back to the raw ID when the display name is unknown or empty. -/
def displayNameOr (m : List (String × String)) (id : String) : String :=
  let n := mapGet m id
  if n == "" then id else n

/-- The `clusterNames` multimap of the get clustermanager pipeline: for each
kubernetes cluster, append its display name under its `Spec.ClusterManagerID`. -/
def clusterManagerClusterNames (cs : List KubernetesCluster) : String → List String :=
  cs.foldl
    (fun m c x =>
      if x == c.clusterManagerID then m x ++ [labelValue c.labels nameLabel] else m x)
    (fun _ => [])

/-- The label selector of the get pipelines: organization scoping when the
`--organization` flag resolved, otherwise the empty selector. -/
def orgSelector (org : Option Organization) : Labels :=
  match org with
  | none => []
  | some o => [(organizationLabel, o.name)]

/-- One rendered row of `get clustermanager` (name, ID, organization,
clusters, namespace, status cells, pre-styling). -/
structure CMRow where
  name : String
  id : String
  organization : String
  clusters : String
  namespc : String
  status : String
  deriving Repr, DecidableEq

/-- Row construction of the get clustermanager `execute` loop body. -/
def mkCMRow (orgNames : List (String × String))
    (clusterNames : String → List String) (m : ClusterManager) : CMRow :=
  let orgID := labelValue m.labels organizationLabel
  let orgName := displayNameOr orgNames orgID
  let statusReason := match m.conditionReasons with
    | [] => ""
    | r :: _ => r
  let clusters := clusterNames m.name
  let clusterList := if clusters.length > 0 then String.intercalate ", " clusters else ""
  { name := labelValue m.labels nameLabel, id := m.name, organization := orgName,
    clusters := clusterList, namespc := m.namespc, status := statusReason }

/-- The per-namespace accumulation loop of the get clustermanager `execute`:
`allManagers = append(allManagers, resources.Items...)` over the namespace
list, threading the store through each `List` call. -/
def gatherClusterManagers (sel : Labels) (nss : List Namespace)
    (acc : List ClusterManager × Store) : List ClusterManager × Store :=
  nss.foldl
    (fun a ns =>
      let p := listClusterManagersOp a.2 ns.name sel
      (a.1 ++ p.1, p.2))
    acc

/-- `options.execute` of `get clustermanager`: list all namespaces, gather the
cluster managers of each namespace under the organization selector, build the
organization-name and cluster multimap lookups, and render one row per
manager (terminal styling elided). -/
def executeGetClusterManager (s : Store) (org : Option Organization)
    (identityNs : String) : List CMRow × Store :=
  let sel := orgSelector org
  let p1 := listNamespacesOp s
  let p2 := gatherClusterManagers sel p1.1 ([], p1.2)
  let p3 := CreateOrganizationNameMap p2.2 identityNs
  let p4 := listKubernetesClustersOp p3.2 "" []
  let clusterNames := clusterManagerClusterNames p4.1
  let rows := p2.1.foldl (fun acc m => acc ++ [mkCMRow p3.1 clusterNames m]) []
  (rows, p4.2)

/-- Appending one mapped element at a time is `map`. -/
theorem foldl_append_singleton {α β : Type} (f : α → β) (l : List α) :
    ∀ init : List β, l.foldl (fun acc x => acc ++ [f x]) init = init ++ l.map f := by
  induction l with
  | nil => intro init; simp
  | cons x xs ih => intro init; simp [List.foldl_cons, ih]

/-- The gathering loop concatenates, namespace by namespace, the managers of
each namespace that match the selector, and leaves the store unchanged. -/
theorem gatherClusterManagers_eq (sel : Labels) (nss : List Namespace) :
    ∀ (acc : List ClusterManager) (st : Store),
      gatherClusterManagers sel nss (acc, st) =
        (acc ++ nss.flatMap (fun ns => st.clusterManagers.filter fun m =>
          nsMatches ns.name m.namespc && selMatches sel m.labels), st) := by
  induction nss with
  | nil => intro acc st; simp [gatherClusterManagers]
  | cons n rest ih =>
      intro acc st
      simp only [gatherClusterManagers, List.foldl_cons] at *
      rw [listClusterManagersOp, ih]
      simp [List.flatMap_cons]

/-- C1: the rows of `get clustermanager` are exactly the concatenation, over
the namespaces in listed order, of the cluster managers of each namespace
matching the organization selector (empty when no `--organization` was
given), and each row's organization cell cross-references the manager's
organization-ID label through the identity namespace's display-name map. -/
theorem getClusterManager_rows (s : Store) (org : Option Organization) (idNs : String) :
    (executeGetClusterManager s org idNs).1 =
      (s.namespaces.flatMap fun ns =>
        s.clusterManagers.filter fun m =>
          nsMatches ns.name m.namespc && selMatches (orgSelector org) m.labels).map
        (mkCMRow (CreateOrganizationNameMap s idNs).1
          (clusterManagerClusterNames s.kubernetesClusters)) ∧
    (∀ m : ClusterManager,
      mapGet (CreateOrganizationNameMap s idNs).1
          (labelValue m.labels organizationLabel) ≠ "" →
      (mkCMRow (CreateOrganizationNameMap s idNs).1
          (clusterManagerClusterNames s.kubernetesClusters) m).organization =
        mapGet (CreateOrganizationNameMap s idNs).1
          (labelValue m.labels organizationLabel)) := by
  constructor
  · show (executeGetClusterManager s org idNs).1 = _
    unfold executeGetClusterManager
    simp only [listNamespacesOp]
    rw [gatherClusterManagers_eq]
    simp only [List.nil_append, CreateOrganizationNameMap, listOrganizationsOp,
      listKubernetesClustersOp]
    rw [foldl_append_singleton]
    simp [nsMatches, selMatches]
  · intro m hm
    simp only [mkCMRow, displayNameOr]
    split
    · next heq => exact absurd (by simpa using heq) hm
    · rfl

/-- Witness for `getClusterManager_rows`: in a store whose identity namespace
maps `org-1` to `acme`, the row of a manager labelled `org-1` carries the
looked-up organization name. -/
theorem getClusterManager_rows_witness :
    (mkCMRow
        (CreateOrganizationNameMap
          { namespaces := [⟨"unikorn-identity"⟩],
            clusterManagers := [],
            kubernetesClusters := [],
            organizations :=
              [ { name := "org-1", namespc := "unikorn-identity",
                  labels := [(nameLabel, "acme")], statusNamespace := "ns-1" } ],
            projects := [], regions := [], computeInstances := [],
            openstackIdentities := [], users := [], roles := [], groups := [] }
          "unikorn-identity").1
        (clusterManagerClusterNames [])
        { name := "cm-1", namespc := "ns-1",
          labels := [(organizationLabel, "org-1")], conditionReasons := [] }).organization =
      mapGet
        (CreateOrganizationNameMap
          { namespaces := [⟨"unikorn-identity"⟩],
            clusterManagers := [],
            kubernetesClusters := [],
            organizations :=
              [ { name := "org-1", namespc := "unikorn-identity",
                  labels := [(nameLabel, "acme")], statusNamespace := "ns-1" } ],
            projects := [], regions := [], computeInstances := [],
            openstackIdentities := [], users := [], roles := [], groups := [] }
          "unikorn-identity").1
        (labelValue [(organizationLabel, "org-1")] organizationLabel) :=
  (getClusterManager_rows _ none "unikorn-identity").2
    { name := "cm-1", namespc := "ns-1",
      labels := [(organizationLabel, "org-1")], conditionReasons := [] }
    (by decide)

/-- `GetOrganization` is the stated match on the filtered organization list. -/
theorem GetOrganization_eq (s : Store) (ns orgName : String) :
    GetOrganization s ns orgName =
      match matchingOrganizations s ns orgName with
      | [org] =>
          if org.statusNamespace == "" then
            .error (.validation "unable to find organization namespace")
          else .ok org
      | _ => .error (.validation ("unable to find organization with name " ++ orgName)) :=
  rfl

/-- C3: the organization name lookup returns an organization exactly when the
identity namespace contains exactly one organization whose name label equals
the requested name and that organization's `Status.Namespace` is non-empty;
in every other case it returns a validation error and no organization. -/
theorem getOrganization_spec (s : Store) (ns orgName : String) :
    ((∃ o, GetOrganization s ns orgName = .ok o) ↔
      (matchingOrganizations s ns orgName).length = 1 ∧
        ∀ o ∈ matchingOrganizations s ns orgName, o.statusNamespace ≠ "") ∧
    (∀ o, GetOrganization s ns orgName = .ok o →
      matchingOrganizations s ns orgName = [o]) ∧
    (((matchingOrganizations s ns orgName).length ≠ 1 ∨
        ∃ o ∈ matchingOrganizations s ns orgName, o.statusNamespace = "") →
      ∃ msg, GetOrganization s ns orgName = .error (.validation msg)) := by
  rw [GetOrganization_eq]
  rcases h : matchingOrganizations s ns orgName with - | ⟨org, - | ⟨o2, rest⟩⟩
  · refine ⟨⟨?_, ?_⟩, ?_, ?_⟩
    · rintro ⟨o, ho⟩; cases ho
    · rintro ⟨hlen, -⟩; simp [h] at hlen
    · intro o ho; cases ho
    · exact fun _ => ⟨_, rfl⟩
  · by_cases hns : org.statusNamespace = ""
    · have hb : (org.statusNamespace == "") = true := by simpa using hns
      simp only [hb, if_true]
      refine ⟨⟨?_, ?_⟩, ?_, ?_⟩
      · rintro ⟨o, ho⟩; cases ho
      · rintro ⟨-, hall⟩
        exact absurd hns (hall org (by simp [h]))
      · intro o ho; cases ho
      · exact fun _ => ⟨_, rfl⟩
    · have hb : (org.statusNamespace == "") = false := by simpa using hns
      simp only [hb, if_false]
      refine ⟨⟨?_, ?_⟩, ?_, ?_⟩
      · intro _
        refine ⟨by simp, ?_⟩
        intro o ho
        simp at ho
        subst ho; exact hns
      · exact fun _ => ⟨org, rfl⟩
      · intro o ho
        cases ho; rfl
      · rintro (hlen | ⟨o, ho, hemp⟩)
        · simp at hlen
        · simp at ho
          subst ho
          exact absurd hemp hns
  · refine ⟨⟨?_, ?_⟩, ?_, ?_⟩
    · rintro ⟨o, ho⟩; cases ho
    · rintro ⟨hlen, -⟩; simp at hlen
    · intro o ho; cases ho
    · exact fun _ => ⟨_, rfl⟩

/-- Witness for `getOrganization_spec`: a store whose identity namespace holds
two organizations named `acme` makes the lookup fail with a validation error. -/
theorem getOrganization_spec_witness :
    ∃ msg,
      GetOrganization
        { namespaces := [], clusterManagers := [], kubernetesClusters := [],
          organizations :=
            [ { name := "org-1", namespc := "unikorn-identity",
                labels := [(nameLabel, "acme")], statusNamespace := "ns-1" },
              { name := "org-2", namespc := "unikorn-identity",
                labels := [(nameLabel, "acme")], statusNamespace := "ns-2" } ],
          projects := [], regions := [], computeInstances := [],
          openstackIdentities := [], users := [], roles := [], groups := [] }
        "unikorn-identity" "acme" = .error (.validation msg) :=
  (getOrganization_spec _ "unikorn-identity" "acme").2.2 (Or.inl (by decide))

/-- `util.CreateKubernetesClusterNameMap`: map cluster IDs to display names,
optionally scoping by organization and project labels. -/
def CreateKubernetesClusterNameMap (s : Store) (organizationID projectID : String) :
    List (String × String) × Store :=
  let sel := (if organizationID == "" then [] else [(organizationLabel, organizationID)]) ++
             (if projectID == "" then [] else [(projectLabel, projectID)])
  let p := listKubernetesClustersOp s "" sel
  (p.1.foldl (fun m c => (c.name, labelValue c.labels nameLabel) :: m) [], p.2)

/-- The identifier resolution of `get sshkey` `execute`: try the identifier as
a cluster display name first; only if no display name matches, accept it as a
cluster ID known to the map; otherwise a validation error. -/
def resolveClusterID (m : List (String × String)) (ident : String) :
    Except Err String :=
  match m.find? (fun kv => kv.2 == ident) with
  | some kv => .ok kv.1
  | none =>
      if mapHas m ident then .ok ident
      else .error (.validation ("cluster " ++ ident ++ " not found"))

/-- `options.execute` of `get sshkey`: build the cluster name map, resolve the
positional identifier, then find the OpenStack identity in the region
namespace whose trimmed name label equals the resolved cluster ID and print
its SSH private key. -/
def executeGetSshkey (s : Store) (regionNs ident : String) :
    Except Err String × Store :=
  let p1 := CreateKubernetesClusterNameMap s "" ""
  match resolveClusterID p1.1 ident with
  | .error e => (.error e, p1.2)
  | .ok resolvedID =>
      let p2 := listOpenstackIdentitiesOp p1.2 regionNs
      match p2.1.find? (fun r =>
          trimPrefix (labelValue r.labels nameLabel) "kubernetes-cluster-" == resolvedID) with
      | none =>
          (.error (.validation ("no OpenStack identity found for cluster " ++ resolvedID)), p2.2)
      | some idn => (.ok idn.sshPrivateKey, p2.2)

/-- C9: `get sshkey` resolves the positional identifier as a display name
first — when some known cluster carries that display name, a name-matching
cluster's ID is used (even when the identifier is itself a known cluster ID);
only when no display name matches is the identifier accepted as a known
cluster ID; when it is neither, the command fails with a validation error
whose outcome does not depend on the stored OpenStack identities. -/
theorem getSshkey_resolution (s : Store) (regionNs ident : String) :
    ((∃ kv ∈ (CreateKubernetesClusterNameMap s "" "").1, kv.2 = ident) →
      ∃ kv ∈ (CreateKubernetesClusterNameMap s "" "").1,
        kv.2 = ident ∧ resolveClusterID (CreateKubernetesClusterNameMap s "" "").1 ident = .ok kv.1) ∧
    ((∀ kv ∈ (CreateKubernetesClusterNameMap s "" "").1, kv.2 ≠ ident) →
      mapHas (CreateKubernetesClusterNameMap s "" "").1 ident = true →
      resolveClusterID (CreateKubernetesClusterNameMap s "" "").1 ident = .ok ident) ∧
    ((∀ kv ∈ (CreateKubernetesClusterNameMap s "" "").1, kv.2 ≠ ident) →
      mapHas (CreateKubernetesClusterNameMap s "" "").1 ident = false →
      (∃ msg, (executeGetSshkey s regionNs ident).1 = .error (.validation msg)) ∧
      ∀ ids' : List OpenstackIdentity,
        (executeGetSshkey { s with openstackIdentities := ids' } regionNs ident).1 =
          (executeGetSshkey s regionNs ident).1) := by
  refine ⟨?_, ?_, ?_⟩
  · rintro ⟨kv, hkv, hname⟩
    unfold resolveClusterID
    cases hfind : (CreateKubernetesClusterNameMap s "" "").1.find? (fun kv => kv.2 == ident) with
    | none =>
        exact absurd hname (by simpa using List.find?_eq_none.mp hfind kv hkv)
    | some kv' =>
        refine ⟨kv', List.mem_of_find?_eq_some hfind, ?_, rfl⟩
        simpa using List.find?_some hfind
  · intro hnone hhas
    unfold resolveClusterID
    cases hfind : (CreateKubernetesClusterNameMap s "" "").1.find? (fun kv => kv.2 == ident) with
    | none => simp [hhas]
    | some kv' =>
        have := List.find?_some hfind
        exact absurd (by simpa using this) (hnone kv' (List.mem_of_find?_eq_some hfind))
  · intro hnone hhas
    have hmap : ∀ ids' : List OpenstackIdentity,
        (CreateKubernetesClusterNameMap { s with openstackIdentities := ids' } "" "").1 =
          (CreateKubernetesClusterNameMap s "" "").1 := by
      intro ids'
      rfl
    have hres : resolveClusterID (CreateKubernetesClusterNameMap s "" "").1 ident =
        .error (.validation ("cluster " ++ ident ++ " not found")) := by
      unfold resolveClusterID
      cases hfind : (CreateKubernetesClusterNameMap s "" "").1.find? (fun kv => kv.2 == ident) with
      | none => simp [hhas]
      | some kv' =>
          have := List.find?_some hfind
          exact absurd (by simpa using this) (hnone kv' (List.mem_of_find?_eq_some hfind))
    constructor
    · refine ⟨"cluster " ++ ident ++ " not found", ?_⟩
      unfold executeGetSshkey
      simp only [hres]
    · intro ids'
      unfold executeGetSshkey
      simp only [hmap ids', hres]

/-- Witness for `getSshkey_resolution`: the identifier `alpha` is both the
display name of cluster `c2` and the ID of a different cluster; resolution
uses the name match and yields `c2`. -/
theorem getSshkey_resolution_witness :
    ∃ kv ∈ (CreateKubernetesClusterNameMap
        { namespaces := [], clusterManagers := [],
          kubernetesClusters :=
            [ { name := "alpha", namespc := "ns-1",
                labels := [(nameLabel, "beta")], clusterManagerID := "" },
              { name := "c2", namespc := "ns-1",
                labels := [(nameLabel, "alpha")], clusterManagerID := "" } ],
          organizations := [], projects := [], regions := [], computeInstances := [],
          openstackIdentities := [], users := [], roles := [], groups := [] } "" "").1,
      kv.2 = "alpha" ∧
        resolveClusterID
          (CreateKubernetesClusterNameMap
            { namespaces := [], clusterManagers := [],
              kubernetesClusters :=
                [ { name := "alpha", namespc := "ns-1",
                    labels := [(nameLabel, "beta")], clusterManagerID := "" },
                  { name := "c2", namespc := "ns-1",
                    labels := [(nameLabel, "alpha")], clusterManagerID := "" } ],
              organizations := [], projects := [], regions := [], computeInstances := [],
              openstackIdentities := [], users := [], roles := [], groups := [] } "" "").1
          "alpha" = .ok kv.1 :=
  (getSshkey_resolution _ "unikorn-region" "alpha").1 (by decide)

/-! ## `get instance` (compute instances) -/

/-- Every available column name of `get instance`. -/
def allColumns : List String :=
  ["name", "id", "flavor", "image", "status", "organization", "project", "region"]

/-- The column set shown when `--columns` is not specified. -/
def defaultColumns : List String :=
  ["name", "flavor", "status", "organization", "project", "region"]

/-- `strings.ToLower` restricted to ASCII (column names are ASCII): map the
characters `A`-`Z` to their lowercase counterparts. -/
def lowerChar (c : Char) : Char :=
  if 65 <= c.toNat && c.toNat <= 90 then Char.ofNat (c.toNat + 32) else c

/-- ASCII `strings.ToLower` on a string. -/
def goToLower (s : String) : String :=
  String.mk (s.data.map lowerChar)

/-- The header lookup of the `get instance` `execute`. -/
def headerMap : List (String × String) :=
  [("name", "Name"), ("id", "ID"), ("flavor", "Flavor"), ("image", "Image"),
   ("status", "Status"), ("organization", "Organization"), ("project", "Project"),
   ("region", "Region")]

/-- `util.GetProject`: exactly one project carries the name label (scoped by
organization when one is given) and its `Status.Namespace` is non-empty. -/
def GetProject (s : Store) (organizationID projectName : String) :
    Except Err Project :=
  let sel := (nameLabel, projectName) ::
    (if organizationID == "" then [] else [(organizationLabel, organizationID)])
  let items := (listProjectsOp s "" sel).1
  match items with
  | [p] =>
      if p.statusNamespace == "" then
        .error (.validation "unable to find project namespace")
      else .ok p
  | _ => .error (.validation ("unable to find project with name " ++ projectName))

/-- Modelled from the spec: `util.GetRegionByName` is referenced by
`RegionFlags.Validate` but its definition is not part of the source snapshot.
Per the spec's shared lookup pattern ("queries a set of namespaces, filters by
label selectors, cross-references IDs to human-readable names"), it resolves
a region display name in the region namespace to the unique region carrying
that name label. -/
def GetRegionByName (s : Store) (ns regionName : String) : Except Err Region :=
  let items := s.regions.filter fun r =>
    nsMatches ns r.namespc && selMatches [(nameLabel, regionName)] r.labels
  match items with
  | [r] => .ok r
  | _ => .error (.validation ("unable to find region with name " ++ regionName))

/-- `OrganizationFlags.Validate`: nothing to do when the flag is unset,
otherwise resolve it through `GetOrganization`. -/
def organizationFlagValidate (s : Store) (idNs orgName : String) :
    Except Err (Option Organization) :=
  if orgName == "" then .ok none
  else (GetOrganization s idNs orgName).map some

/-- `ProjectFlags.Validate`: nothing to do when the flag is unset, otherwise
resolve through `GetProject` scoped by the resolved organization's ID. -/
def projectFlagValidate (s : Store) (org : Option Organization)
    (projectName : String) : Except Err (Option Project) :=
  if projectName == "" then .ok none
  else
    let organizationID := match org with
      | none => ""
      | some o => o.name
    (GetProject s organizationID projectName).map some

/-- `RegionFlags.Validate`: nothing to do when the flag is unset, otherwise
resolve through `GetRegionByName`. -/
def regionFlagValidate (s : Store) (regionNs regionName : String) :
    Except Err (Option Region) :=
  if regionName == "" then .ok none
  else (GetRegionByName s regionNs regionName).map some

/-- The flag values of a `get instance` invocation. -/
structure InstanceFlags where
  organizationName : String
  projectName : String
  regionName : String
  columns : List String
  deriving Repr, DecidableEq

/-- `options.validate` of `get instance`: run the organization, project and
region flag validators in order, then reject the first `--columns` entry that
matches no allowed column name ignoring case. -/
def validateInstanceOptions (s : Store) (idNs regionNs : String)
    (f : InstanceFlags) :
    Except Err (Option Organization × Option Project × Option Region) :=
  match organizationFlagValidate s idNs f.organizationName with
  | .error e => .error e
  | .ok org =>
    match projectFlagValidate s org f.projectName with
    | .error e => .error e
    | .ok proj =>
      match regionFlagValidate s regionNs f.regionName with
      | .error e => .error e
      | .ok reg =>
        match f.columns.find? (fun col => !(allColumns.contains (goToLower col))) with
        | some col => .error (.validation ("unknown column " ++ col))
        | none => .ok (org, proj, reg)

/-- `formatFlavorDescription`: human-readable flavor description from CPU,
memory and GPU metadata, falling back to the flavor ID when all are absent. -/
def formatFlavorDescription (fm : FlavorMetadata) : String :=
  let d1 := match fm.cpuCount with
    | some c => toString c ++ " CPUs"
    | none => ""
  let d2 := match fm.memory with
    | some mstr => if d1 == "" then mstr else d1 ++ ", " ++ mstr
    | none => d1
  let d3 := match fm.gpu with
    | some g =>
        let p := toString g.physicalCount
        (if d2 == "" then "" else d2 ++ ", ") ++ p ++ "x " ++ g.vendor ++ " " ++ g.model
    | none => d2
  if d3 == "" then fm.id else d3

/-- `buildFlavorNameMap`: first writer wins per flavor UUID over every
region's flavor metadata. -/
def buildFlavorNameMap (regions : List Region) : List (String × String) :=
  regions.foldl
    (fun m r =>
      match r.flavors with
      | none => m
      | some fms =>
          fms.foldl
            (fun m2 fm =>
              if mapHas m2 fm.id then m2
              else m2 ++ [(fm.id, formatFlavorDescription fm)])
            m)
    []

/-- The label selector of `get instance`: organization, project and region
scoping for whichever flags resolved. -/
def instanceSelector (org : Option Organization) (proj : Option Project)
    (reg : Option Region) : Labels :=
  (match org with
    | none => []
    | some o => [(organizationLabel, o.name)]) ++
  (match proj with
    | none => []
    | some p => [(projectLabel, p.name)]) ++
  (match reg with
    | none => []
    | some r => [(regionLabel, r.name)])

/-- The per-namespace accumulation loop of the `get instance` `execute`. -/
def gatherComputeInstances (sel : Labels) (nss : List Namespace)
    (acc : List ComputeInstance × Store) : List ComputeInstance × Store :=
  nss.foldl
    (fun a ns =>
      let p := listComputeInstancesOp a.2 ns.name sel
      (a.1 ++ p.1, p.2))
    acc

/-- The `valueMap` of the `get instance` row loop: every cell value computed
for one instance, keyed by (lowercase) column name. -/
def instanceValueMap (orgNames projNames flavorNames regionNames : List (String × String))
    (inst : ComputeInstance) : List (String × String) :=
  let name := labelValue inst.labels nameLabel
  let orgName := displayNameOr orgNames (labelValue inst.labels organizationLabel)
  let projName := displayNameOr projNames (labelValue inst.labels projectLabel)
  let flavorName := displayNameOr flavorNames inst.flavorID
  let statusReason := match inst.conditionReasons with
    | [] => ""
    | r :: _ => r
  let regionName := displayNameOr regionNames (labelValue inst.labels regionLabel)
  [("name", name), ("id", inst.name), ("flavor", flavorName), ("image", inst.imageID),
   ("status", statusReason), ("organization", orgName), ("project", projName),
   ("region", regionName)]

/-- A rendered `get instance` table: headers and rows, pre-styling. -/
structure InstanceTable where
  headers : List String
  rows : List (List String)
  deriving Repr, DecidableEq

/-- The `region ID → display name` map of the `get instance` `execute`. -/
def regionNameMapOf (rs : List Region) : List (String × String) :=
  rs.foldl (fun m r => (r.name, labelValue r.labels nameLabel) :: m) []

/-- The cell-selection loop shared by the header and row construction:
append the map's entry (zero value when absent) for each selected column. -/
def renderCells (vm : List (String × String)) (cols : List String) : List String :=
  cols.foldl (fun acc col => acc ++ [mapGet vm col]) []

/-- `options.execute` of `get instance`: gather instances of every namespace
under the selector, build the organization, project, flavor and region name
lookups, then emit the selected columns' headers and one row of selected
cells per instance. -/
def executeGetInstance (s : Store) (org : Option Organization)
    (proj : Option Project) (reg : Option Region) (cols : List String)
    (idNs regionNs : String) : InstanceTable × Store :=
  let sel := instanceSelector org proj reg
  let p1 := listNamespacesOp s
  let p2 := gatherComputeInstances sel p1.1 ([], p1.2)
  let p3 := CreateOrganizationNameMap p2.2 idNs
  let p4 := CreateProjectNameMap p3.2
  let p5 := listRegionsOp p4.2 regionNs
  let flavorNames := buildFlavorNameMap p5.1
  let regionNames := regionNameMapOf p5.1
  let headers := renderCells headerMap cols
  let rows := p2.1.foldl
    (fun acc inst =>
      acc ++ [renderCells (instanceValueMap p3.1 p4.1 flavorNames regionNames inst) cols])
    []
  ({ headers := headers, rows := rows }, p5.2)

/-- The gathering loop of `get instance` concatenates per-namespace filtered
instances and leaves the store unchanged. -/
theorem gatherComputeInstances_eq (sel : Labels) (nss : List Namespace) :
    ∀ (acc : List ComputeInstance) (st : Store),
      gatherComputeInstances sel nss (acc, st) =
        (acc ++ nss.flatMap (fun ns => st.computeInstances.filter fun m =>
          nsMatches ns.name m.namespc && selMatches sel m.labels), st) := by
  induction nss with
  | nil => intro acc st; simp [gatherComputeInstances]
  | cons n rest ih =>
      intro acc st
      simp only [gatherComputeInstances, List.foldl_cons] at *
      rw [listComputeInstancesOp, ih]
      simp [List.flatMap_cons]

/-- Cell selection is the `map` of the per-column lookup. -/
theorem renderCells_eq_map (vm : List (String × String)) (cols : List String) :
    renderCells vm cols = cols.map (mapGet vm) := by
  unfold renderCells
  rw [foldl_append_singleton]
  simp

/-- A key with no binding reads as the zero value. -/
theorem mapGet_eq_empty_of_key_not_mem (m : List (String × String)) (k : String)
    (h : ∀ kv ∈ m, kv.1 ≠ k) : mapGet m k = "" := by
  unfold mapGet
  rw [List.find?_eq_none.mpr]
  · rfl
  · intro kv hkv
    simpa using h kv hkv

/-- Every key of an instance `valueMap` is an allowed column name. -/
theorem instanceValueMap_keys (onames pnames fnames rnames : List (String × String))
    (inst : ComputeInstance) :
    ∀ kv ∈ instanceValueMap onames pnames fnames rnames inst, kv.1 ∈ allColumns := by
  intro kv hkv
  simp only [instanceValueMap, List.mem_cons, List.mem_singleton,
    List.not_mem_nil, or_false] at hkv
  rcases hkv with h | h | h | h | h | h | h | h <;> subst h <;> simp [allColumns]

/-- Every key of the header map is an allowed column name. -/
theorem headerMap_keys : ∀ kv ∈ headerMap, kv.1 ∈ allColumns := by decide

/-- A concrete store for the `get instance` column analysis: one instance
named `vm1` in namespace `ns-1`. -/
def instanceCaseStore : Store :=
  { namespaces := [⟨"ns-1"⟩], clusterManagers := [], kubernetesClusters := [],
    organizations := [], projects := [], regions := [],
    computeInstances :=
      [ { name := "i-1", namespc := "ns-1", labels := [(nameLabel, "vm1")],
          flavorID := "f1", imageID := "img", conditionReasons := ["Ready"] } ],
    openstackIdentities := [], users := [], roles := [], groups := [] }

/-- C6 counterexample: requesting `--columns Name` (capitalised) passes
validation — column matching is case-insensitive — yet the rendered table's
header cell is empty rather than the column's display header `Name`, and the
row cell is empty rather than the instance's name, because the header and
value lookups are case-sensitive. -/
theorem getInstance_columns_counterexample :
    (validateInstanceOptions instanceCaseStore "unikorn-identity" "unikorn-region"
        { organizationName := "", projectName := "", regionName := "",
          columns := ["Name"] }).isOk = true ∧
    (executeGetInstance instanceCaseStore none none none ["Name"]
        "unikorn-identity" "unikorn-region").1.headers = [""] ∧
    (executeGetInstance instanceCaseStore none none none ["Name"]
        "unikorn-identity" "unikorn-region").1.rows = [[""]] ∧
    mapGet headerMap "name" = "Name" ∧ ("" : String) ≠ "Name" := by
  refine ⟨by decide, by decide, by decide, by decide, by decide⟩

/-- C6 (amended): with the scoping flags unset, validation succeeds exactly
when every `--columns` entry matches an allowed column name ignoring case;
the rendered table has exactly the requested column entries in the requested
order, each header and cell looked up case-sensitively from the header and
per-instance value maps, so lowercase entries render their display header
(always non-empty) and per-instance value while any other capitalisation
renders empty headers and cells. -/
theorem getInstance_columns_amended (s : Store) (idNs regionNs : String)
    (f : InstanceFlags) (horg : f.organizationName = "")
    (hproj : f.projectName = "") (hreg : f.regionName = "") :
    ((validateInstanceOptions s idNs regionNs f).isOk = true ↔
      ∀ col ∈ f.columns, allColumns.contains (goToLower col) = true) ∧
    (executeGetInstance s none none none f.columns idNs regionNs).1.headers =
      f.columns.map (mapGet headerMap) ∧
    (executeGetInstance s none none none f.columns idNs regionNs).1.rows =
      (s.namespaces.flatMap fun ns =>
        s.computeInstances.filter fun m =>
          nsMatches ns.name m.namespc &&
            selMatches (instanceSelector none none none) m.labels).map
        (fun inst => f.columns.map (mapGet (instanceValueMap
          (CreateOrganizationNameMap s idNs).1 (CreateProjectNameMap s).1
          (buildFlavorNameMap (listRegionsOp s regionNs).1)
          (regionNameMapOf (listRegionsOp s regionNs).1) inst))) ∧
    (∀ col ∈ allColumns, mapGet headerMap col ≠ "") ∧
    (∀ col : String, col ∉ allColumns →
      mapGet headerMap col = "" ∧
      ∀ (onames pnames fnames rnames : List (String × String))
        (inst : ComputeInstance),
        mapGet (instanceValueMap onames pnames fnames rnames inst) col = "") := by
  refine ⟨?_, ?_, ?_, by decide, ?_⟩
  · unfold validateInstanceOptions
    rw [horg, hproj, hreg]
    have h1 : organizationFlagValidate s idNs "" = .ok none := rfl
    have h2 : projectFlagValidate s none "" = .ok none := rfl
    have h3 : regionFlagValidate s regionNs "" = .ok none := rfl
    rw [h1]
    simp only []
    rw [h2]
    simp only []
    rw [h3]
    simp only []
    cases hf : f.columns.find? (fun col => !(allColumns.contains (goToLower col))) with
    | none =>
        refine ⟨fun _ col hcol => ?_, fun _ => rfl⟩
        have := List.find?_eq_none.mp hf col hcol
        simpa using this
    | some col =>
        refine ⟨fun h => by simp [Except.isOk, Except.toBool] at h, fun hall => ?_⟩
        have hmem := List.mem_of_find?_eq_some hf
        have hprop := List.find?_some hf
        rw [hall col hmem] at hprop
        simp at hprop
  · unfold executeGetInstance
    simp only [renderCells_eq_map]
  · unfold executeGetInstance
    simp only [listNamespacesOp]
    rw [gatherComputeInstances_eq]
    simp only [List.nil_append, CreateOrganizationNameMap, CreateProjectNameMap,
      listOrganizationsOp, listProjectsOp, listRegionsOp]
    rw [foldl_append_singleton]
    simp [renderCells_eq_map]
  · intro col hcol
    constructor
    · exact mapGet_eq_empty_of_key_not_mem _ _ fun kv hkv heq =>
        hcol (heq ▸ headerMap_keys kv hkv)
    · intro onames pnames fnames rnames inst
      exact mapGet_eq_empty_of_key_not_mem _ _ fun kv hkv heq =>
        hcol (heq ▸ instanceValueMap_keys onames pnames fnames rnames inst kv hkv)

/-- Witness for `getInstance_columns_amended`: with no scoping flags and the
default column set, validation succeeds on the sample store. -/
theorem getInstance_columns_amended_witness :
    (validateInstanceOptions instanceCaseStore "unikorn-identity" "unikorn-region"
        { organizationName := "", projectName := "", regionName := "",
          columns := defaultColumns }).isOk = true :=
  (getInstance_columns_amended instanceCaseStore "unikorn-identity" "unikorn-region"
      { organizationName := "", projectName := "", regionName := "",
        columns := defaultColumns } rfl rfl rfl).1.mpr (by decide)

/-- Falling back preserves non-emptiness: a non-empty ID never renders as an
empty cell. -/
theorem displayNameOr_ne_empty (m : List (String × String)) (id : String)
    (h : id ≠ "") : displayNameOr m id ≠ "" := by
  unfold displayNameOr
  by_cases hn : mapGet m id = ""
  · simp [hn, h]
  · simpa [show (mapGet m id == "") = false by simpa using hn] using hn

/-- The organization cell of an instance's value map is the fallback lookup
of its organization-ID label. -/
theorem instanceValueMap_organization (onames pnames fnames rnames : List (String × String))
    (inst : ComputeInstance) :
    mapGet (instanceValueMap onames pnames fnames rnames inst) "organization" =
      displayNameOr onames (labelValue inst.labels organizationLabel) := rfl

/-- The project cell of an instance's value map is the fallback lookup of its
project-ID label. -/
theorem instanceValueMap_project (onames pnames fnames rnames : List (String × String))
    (inst : ComputeInstance) :
    mapGet (instanceValueMap onames pnames fnames rnames inst) "project" =
      displayNameOr pnames (labelValue inst.labels projectLabel) := rfl

/-- The flavor cell of an instance's value map is the fallback lookup of its
`Spec.FlavorID`. -/
theorem instanceValueMap_flavor (onames pnames fnames rnames : List (String × String))
    (inst : ComputeInstance) :
    mapGet (instanceValueMap onames pnames fnames rnames inst) "flavor" =
      displayNameOr fnames inst.flavorID := rfl

/-- The region cell of an instance's value map is the fallback lookup of its
region-ID label. -/
theorem instanceValueMap_region (onames pnames fnames rnames : List (String × String))
    (inst : ComputeInstance) :
    mapGet (instanceValueMap onames pnames fnames rnames inst) "region" =
      displayNameOr rnames (labelValue inst.labels regionLabel) := rfl

/-- C10: wherever a rendering cross-references an ID to a display name, an ID
that is absent from the lookup map or mapped to the empty string is rendered
as the raw ID itself; consequently the organization cell of a cluster-manager
row and the organization, project, flavor and region cells of an instance row
are never empty when the underlying resource carries a non-empty ID. -/
theorem idFallback_rendering :
    (∀ (m : List (String × String)) (id : String),
      mapGet m id = "" → displayNameOr m id = id) ∧
    (∀ (onames : List (String × String)) (cnames : String → List String)
      (cm : ClusterManager),
      labelValue cm.labels organizationLabel ≠ "" →
      (mkCMRow onames cnames cm).organization ≠ "") ∧
    (∀ (onames pnames fnames rnames : List (String × String))
      (inst : ComputeInstance),
      (labelValue inst.labels organizationLabel ≠ "" →
        mapGet (instanceValueMap onames pnames fnames rnames inst) "organization" ≠ "") ∧
      (labelValue inst.labels projectLabel ≠ "" →
        mapGet (instanceValueMap onames pnames fnames rnames inst) "project" ≠ "") ∧
      (inst.flavorID ≠ "" →
        mapGet (instanceValueMap onames pnames fnames rnames inst) "flavor" ≠ "") ∧
      (labelValue inst.labels regionLabel ≠ "" →
        mapGet (instanceValueMap onames pnames fnames rnames inst) "region" ≠ "")) := by
  refine ⟨?_, ?_, ?_⟩
  · intro m id h
    unfold displayNameOr
    simp [h]
  · intro onames cnames cm h
    show displayNameOr onames (labelValue cm.labels organizationLabel) ≠ ""
    exact displayNameOr_ne_empty _ _ h
  · intro onames pnames fnames rnames inst
    refine ⟨?_, ?_, ?_, ?_⟩
    · intro h
      rw [instanceValueMap_organization]
      exact displayNameOr_ne_empty _ _ h
    · intro h
      rw [instanceValueMap_project]
      exact displayNameOr_ne_empty _ _ h
    · intro h
      rw [instanceValueMap_flavor]
      exact displayNameOr_ne_empty _ _ h
    · intro h
      rw [instanceValueMap_region]
      exact displayNameOr_ne_empty _ _ h

/-- Witness for `idFallback_rendering`: a manager labelled with an
organization ID unknown to an empty lookup map still renders a non-empty
organization cell (the raw ID). -/
theorem idFallback_rendering_witness :
    (mkCMRow [] (fun _ => [])
        { name := "cm-9", namespc := "ns-9",
          labels := [(organizationLabel, "org-unknown")],
          conditionReasons := [] }).organization ≠ "" :=
  idFallback_rendering.2.1 [] (fun _ => [])
    { name := "cm-9", namespc := "ns-9",
      labels := [(organizationLabel, "org-unknown")], conditionReasons := [] }
    (by decide)

/-! ## `create group` -/

/-- Byte-wise (ASCII) lexicographic comparison used to model `slices.Sort`
on strings. -/
def leChars : List Char → List Char → Bool
  | [], _ => true
  | _ :: _, [] => false
  | a :: as, b :: bs =>
      if a.toNat < b.toNat then true
      else if b.toNat < a.toNat then false
      else leChars as bs

/-- String comparison for sorting. -/
def strLEb (a b : String) : Bool := leChars a.data b.data

/-- Insert into a sorted list (ascending). -/
def insertSorted (x : String) : List String → List String
  | [] => [x]
  | y :: ys => if strLEb x y then x :: y :: ys else y :: insertSorted x ys

/-- `slices.Sort`: ascending lexicographic sort. -/
def sortStrings (l : List String) : List String :=
  l.foldr insertSorted []

/-- `slices.Compact`: collapse adjacent duplicates. -/
def compactAdj : List String → List String
  | [] => []
  | [x] => [x]
  | x :: y :: rest =>
      if x == y then compactAdj (y :: rest) else x :: compactAdj (y :: rest)

/-- The `slices.Sort` + `slices.Compact` duplicate removal of
`validateRoles` and `validateUsers`. -/
def dedupSorted (l : List String) : List String :=
  compactAdj (sortStrings l)

/-- The role-resolution loop of `validateRoles`: for each (deduplicated) role
name, the ID of the first listed role carrying that name label; a validation
error at the first name with no match. -/
def resolveRoles (rs : List Role) : List String → Except Err (List String)
  | [] => .ok []
  | role :: rest =>
      match rs.find? (fun r => labelValue r.labels nameLabel == role) with
      | none => .error (.validation ("unable to find role " ++ role))
      | some r =>
          match resolveRoles rs rest with
          | .error e => .error e
          | .ok ids => .ok (r.name :: ids)

/-- The user-assignment loop of `validateUsers`: `userIDs[i] = items[index].Name`
for each (deduplicated) user subject, over a slice pre-allocated by the
caller; a Go out-of-range panic surfaces as `Err.panicked` when the write
index falls outside the slice. -/
def assignUserIDs (us : List User) (userIDs : List String) (i : Nat) :
    List String → Except Err (List String)
  | [] => .ok userIDs
  | u :: rest =>
      match us.find? (fun x => x.subject == u) with
      | none => .error (.validation ("unable to find user " ++ u))
      | some x =>
          if i < userIDs.length then
            assignUserIDs us (userIDs.set i x.name) (i + 1) rest
          else .error (.panicked "index out of range")

/-- The organization namespace recorded by `OrganizationFlags.Validate`
(empty when the flag was unset). -/
def orgNamespaceOf : Option Organization → String
  | none => ""
  | some o => o.statusNamespace

/-- The organization ID recorded by `OrganizationFlags.Validate` (empty when
the flag was unset). -/
def orgIDOf : Option Organization → String
  | none => ""
  | some o => o.name

/-- The flag values of a `create group` invocation. -/
structure CreateGroupFlags where
  orgName : String
  name : String
  description : String
  roles : List String
  users : List String
  deriving Repr, DecidableEq

/-- The `create group` command body (`validate` then `execute`): organization
flag validation, group-name uniqueness check in the identity namespace, role
resolution (after deduplication) in the identity namespace, user resolution
(after deduplication) in the organization's namespace into a slice
pre-allocated with the number of deduplicated roles — as in the source — and
finally the `Create` call; the store is returned alongside the outcome.
`newID` stands for the generated resource ID. -/
def createGroupRun (s : Store) (idNs : String) (f : CreateGroupFlags)
    (newID : String) : Except Err Unit × Store :=
  match organizationFlagValidate s idNs f.orgName with
  | .error e => (.error e, s)
  | .ok orgOpt =>
      if ((listGroupsOp s idNs [(nameLabel, f.name)]).1.length != 0) then
        (.error (.validation ("expected no groups to exist with name " ++ f.name)), s)
      else
        match resolveRoles (listRolesOp s idNs).1 (dedupSorted f.roles) with
        | .error e => (.error e, s)
        | .ok roleIDs =>
            match assignUserIDs (listUsersOp s (orgNamespaceOf orgOpt)).1
                (List.replicate (dedupSorted f.roles).length "") 0
                (dedupSorted f.users) with
            | .error e => (.error e, s)
            | .ok userIDs =>
                let group : Group :=
                  { name := newID, namespc := orgNamespaceOf orgOpt,
                    labels := [(organizationLabel, orgIDOf orgOpt), (nameLabel, f.name)],
                    annotations :=
                      if f.description != "" then [(descriptionKey, f.description)]
                      else [],
                    roleIDs := roleIDs, userIDs := userIDs }
                (.ok (), (createGroupOp s group).2)

/-- Whether a group named `name` already exists in the identity namespace
(the `validateGroup` check). -/
def groupNameExists (s : Store) (idNs name : String) : Bool :=
  (listGroupsOp s idNs [(nameLabel, name)]).1.length != 0

/-- Whether some requested (deduplicated) role has no match in the identity
namespace. -/
def someRoleMissing (s : Store) (idNs : String) (roles : List String) : Bool :=
  (dedupSorted roles).any fun role =>
    ((listRolesOp s idNs).1.find? (fun r => labelValue r.labels nameLabel == role)).isNone

/-- Whether some requested (deduplicated) user subject has no match in the
given namespace. -/
def someUserMissing (s : Store) (orgNs : String) (users : List String) : Bool :=
  (dedupSorted users).any fun u =>
    ((listUsersOp s orgNs).1.find? (fun x => x.subject == u)).isNone

/-- Role resolution fails whenever some requested role has no match. -/
theorem resolveRoles_error_of_missing (rs : List Role) :
    ∀ roles : List String,
      (∃ role ∈ roles, rs.find? (fun r => labelValue r.labels nameLabel == role) = none) →
      ∃ e, resolveRoles rs roles = .error e := by
  intro roles
  induction roles with
  | nil => rintro ⟨r, hr, -⟩; cases hr
  | cons a rest ih =>
      rintro ⟨role, hrole, hnone⟩
      rcases List.mem_cons.mp hrole with rfl | hmem
      · exact ⟨_, by unfold resolveRoles; rw [hnone]⟩
      · cases hfind : rs.find? (fun r => labelValue r.labels nameLabel == a) with
        | none => exact ⟨_, by unfold resolveRoles; rw [hfind]⟩
        | some r0 =>
            rcases ih ⟨role, hmem, hnone⟩ with ⟨e, he⟩
            refine ⟨e, ?_⟩
            unfold resolveRoles
            rw [hfind, he]

/-- User assignment fails whenever some requested user has no match,
whatever the pre-allocated slice: either the missing user is reached, or an
out-of-range write panics first. -/
theorem assignUserIDs_error_of_missing (us : List User) :
    ∀ users : List String,
      (∃ u ∈ users, us.find? (fun x => x.subject == u) = none) →
      ∀ (ids : List String) (i : Nat), ∃ e, assignUserIDs us ids i users = .error e := by
  intro users
  induction users with
  | nil => rintro ⟨u, hu, -⟩; cases hu
  | cons a rest ih =>
      rintro ⟨u, hu, hnone⟩ ids i
      rcases List.mem_cons.mp hu with rfl | hmem
      · exact ⟨_, by unfold assignUserIDs; rw [hnone]⟩
      · cases hfind : us.find? (fun x => x.subject == a) with
        | none => exact ⟨_, by unfold assignUserIDs; rw [hfind]⟩
        | some x0 =>
            by_cases hlt : i < ids.length
            · rcases ih ⟨u, hmem, hnone⟩ (ids.set i x0.name) (i + 1) with ⟨e, he⟩
              refine ⟨e, ?_⟩
              unfold assignUserIDs
              rw [hfind]
              dsimp only
              rw [if_pos hlt, he]
            · refine ⟨.panicked "index out of range", ?_⟩
              unfold assignUserIDs
              rw [hfind]
              dsimp only
              rw [if_neg hlt]

/-- C5: whenever the `create group` validators reject — in particular when a
group of the requested name already exists in the identity namespace, when
some requested role cannot be found, or when some requested user cannot be
found in the resolved organization namespace — the command stops with an
error and the store is unchanged (no group is created). -/
theorem createGroup_validation_guard (s : Store) (idNs : String)
    (f : CreateGroupFlags) (newID : String) :
    (∀ e, (createGroupRun s idNs f newID).1 = .error e →
      (createGroupRun s idNs f newID).2 = s) ∧
    ((groupNameExists s idNs f.name = true ∨
      someRoleMissing s idNs f.roles = true ∨
      (∃ orgOpt, organizationFlagValidate s idNs f.orgName = .ok orgOpt ∧
        someUserMissing s (orgNamespaceOf orgOpt) f.users = true)) →
      ∃ e, (createGroupRun s idNs f newID).1 = .error e) := by
  constructor
  · intro e
    unfold createGroupRun
    cases horg : organizationFlagValidate s idNs f.orgName with
    | error e1 => intro _; rfl
    | ok orgOpt =>
        dsimp only
        split
        · intro _; rfl
        · cases hr : resolveRoles (listRolesOp s idNs).1 (dedupSorted f.roles) with
          | error e2 => intro _; rfl
          | ok roleIDs =>
              dsimp only
              cases hu : assignUserIDs (listUsersOp s (orgNamespaceOf orgOpt)).1
                  (List.replicate (dedupSorted f.roles).length "") 0
                  (dedupSorted f.users) with
              | error e3 => intro _; rfl
              | ok userIDs => intro h; cases h
  · intro hcase
    cases horg : organizationFlagValidate s idNs f.orgName with
    | error e1 =>
        refine ⟨e1, ?_⟩
        unfold createGroupRun
        rw [horg]
    | ok orgOpt =>
        by_cases hg : groupNameExists s idNs f.name = true
        · unfold groupNameExists at hg
          refine ⟨.validation ("expected no groups to exist with name " ++ f.name), ?_⟩
          unfold createGroupRun
          rw [horg]
          dsimp only
          rw [if_pos hg]
        · unfold groupNameExists at hg
          cases hr : resolveRoles (listRolesOp s idNs).1 (dedupSorted f.roles) with
          | error e2 =>
              refine ⟨e2, ?_⟩
              unfold createGroupRun
              rw [horg]
              dsimp only
              rw [if_neg hg, hr]
          | ok roleIDs =>
              rcases hcase with hg2 | hrm | ⟨orgOpt2, horg2, hum⟩
              · exact absurd hg2 (by unfold groupNameExists; exact hg)
              · rcases List.any_eq_true.mp hrm with ⟨role, hmem, hnone⟩
                rcases resolveRoles_error_of_missing (listRolesOp s idNs).1
                    (dedupSorted f.roles)
                    ⟨role, hmem, Option.isNone_iff_eq_none.mp hnone⟩ with ⟨e, he⟩
                rw [he] at hr
                cases hr
              · have horgeq : orgOpt2 = orgOpt := by
                  rw [horg] at horg2
                  cases horg2
                  rfl
                subst horgeq
                rcases List.any_eq_true.mp hum with ⟨u, humem, hunone⟩
                rcases assignUserIDs_error_of_missing
                    (listUsersOp s (orgNamespaceOf orgOpt2)).1 (dedupSorted f.users)
                    ⟨u, humem, Option.isNone_iff_eq_none.mp hunone⟩
                    (List.replicate (dedupSorted f.roles).length "") 0 with ⟨e, he⟩
                refine ⟨e, ?_⟩
                unfold createGroupRun
                rw [horg]
                dsimp only
                rw [if_neg hg, hr]
                dsimp only
                rw [he]

/-- Witness for `createGroup_validation_guard`: a store already holding a
group named `devs` in the identity namespace makes the command fail and leave
the store unchanged. -/
theorem createGroup_validation_guard_witness :
    ∃ e,
      (createGroupRun
        { namespaces := [], clusterManagers := [], kubernetesClusters := [],
          organizations := [], projects := [], regions := [], computeInstances := [],
          openstackIdentities := [], users := [], roles := [],
          groups :=
            [ { name := "grp-0", namespc := "unikorn-identity",
                labels := [(nameLabel, "devs")], annotations := [],
                roleIDs := [], userIDs := [] } ] }
        "unikorn-identity"
        { orgName := "", name := "devs", description := "",
          roles := ["admin"], users := ["a@x"] }
        "grp-new").1 = .error e :=
  (createGroup_validation_guard _ "unikorn-identity"
      { orgName := "", name := "devs", description := "",
        roles := ["admin"], users := ["a@x"] } "grp-new").2
    (Or.inl (by decide))

/-- The store of the `create group` user-ID analysis: organization `acme`
(namespace `org-ns`), roles `admin` and `viewer`, users `a@x` and `b@x`. -/
def groupBugStore : Store :=
  { namespaces := [], clusterManagers := [], kubernetesClusters := [],
    organizations :=
      [ { name := "org-1", namespc := "unikorn-identity",
          labels := [(nameLabel, "acme")], statusNamespace := "org-ns" } ],
    projects := [], regions := [], computeInstances := [], openstackIdentities := [],
    users :=
      [ { name := "user-1", namespc := "org-ns", subject := "a@x" },
        { name := "user-2", namespc := "org-ns", subject := "b@x" } ],
    roles :=
      [ { name := "role-1", namespc := "unikorn-identity",
          labels := [(nameLabel, "admin")] },
        { name := "role-2", namespc := "unikorn-identity",
          labels := [(nameLabel, "viewer")] } ],
    groups := [] }

/-- C8: `validateUsers` allocates the user-ID slice with the number of
deduplicated roles instead of users (`make([]string, len(o.roles))`).  With
two roles and one user every validator succeeds, yet the created group's
`UserIDs` is `["user-1", ""]` — a padding empty entry alongside the one real
user — and with one role and two existing users the command aborts with an
out-of-range panic instead of creating the group. -/
theorem createGroup_userIDs_bug :
    ((createGroupRun groupBugStore "unikorn-identity"
        { orgName := "acme", name := "devs", description := "",
          roles := ["admin", "viewer"], users := ["a@x"] } "grp-new").1 = .ok () ∧
      (createGroupRun groupBugStore "unikorn-identity"
        { orgName := "acme", name := "devs", description := "",
          roles := ["admin", "viewer"], users := ["a@x"] } "grp-new").2.groups.map
          (fun g => g.userIDs) = [["user-1", ""]]) ∧
    (createGroupRun groupBugStore "unikorn-identity"
        { orgName := "acme", name := "devs", description := "",
          roles := ["admin"], users := ["a@x", "b@x"] } "grp-new").1 =
      .error (.panicked "index out of range") := by
  exact ⟨⟨rfl, by decide⟩, rfl⟩

/-! ## `create organization` -/

/-- `validateOrganization` of `create organization`: no organization of that
name may already exist in the identity namespace. -/
def validateCreateOrganization (s : Store) (idNs name : String) : Except Err Unit :=
  if ((listOrganizationsOp s idNs [(nameLabel, name)]).1.length != 0) then
    .error (.validation ("expected no organizations to exist with name " ++ name))
  else .ok ()

/-- The post-create poll loop of `create organization`, i.e.
`retry.Forever().DoWithContext(ctx, callback)` around the callback that
re-reads the new organization and fails with `ErrResource` until its
`Status.Namespace` is non-empty.  The external retry helper repeats the
callback until it succeeds or the command context's one-minute deadline
expires; `fuel` is the number of polls the deadline admits and `obs i` the
`Status.Namespace` the `i`-th re-read observes (it is filled in externally by
the identity controller).  The result carries the index of the succeeding
poll. -/
def pollOrganization (obs : Nat → String) : Nat → Nat → Except Err Nat
  | 0, _ => .error .timeout
  | Nat.succ n, i => if obs i == "" then pollOrganization obs n (i + 1) else .ok i

/-- `createOrganizationOptions.execute`: create the organization resource
(name label, generated ID, empty status) and then poll until it is
provisioned. -/
def executeCreateOrganization (s : Store) (idNs name newID : String)
    (fuel : Nat) (obs : Nat → String) : Except Err Nat × Store :=
  let organization : Organization :=
    { name := newID, namespc := idNs, labels := [(nameLabel, name)],
      statusNamespace := "" }
  let s1 := (createOrganizationOp s organization).2
  (pollOrganization obs fuel 0, s1)

/-- The poll loop succeeds exactly at the first in-budget observation of a
non-empty namespace. -/
theorem pollOrganization_ok_iff (obs : Nat → String) :
    ∀ (fuel i k : Nat),
      pollOrganization obs fuel i = .ok k ↔
        (i ≤ k ∧ k < i + fuel ∧ obs k ≠ "" ∧
          ∀ j, i ≤ j → j < k → obs j = "") := by
  intro fuel
  induction fuel with
  | zero =>
      intro i k
      constructor
      · intro h; cases h
      · rintro ⟨h1, h2, -, -⟩; omega
  | succ n ih =>
      intro i k
      unfold pollOrganization
      by_cases hob : obs i = ""
      · have hb : (obs i == "") = true := by simpa using hob
        rw [if_pos hb, ih (i + 1) k]
        constructor
        · rintro ⟨h1, h2, h3, h4⟩
          refine ⟨by omega, by omega, h3, ?_⟩
          intro j hji hjk
          rcases Nat.eq_or_lt_of_le hji with rfl | hlt
          · exact hob
          · exact h4 j hlt hjk
        · rintro ⟨h1, h2, h3, h4⟩
          have hik : i ≠ k := fun he => h3 (he ▸ hob)
          exact ⟨by omega, by omega, h3, fun j hj1 hj2 => h4 j (by omega) hj2⟩
      · have hb : (obs i == "") = false := by simpa using hob
        rw [if_neg (by simp [hb])]
        constructor
        · intro h
          cases h
          exact ⟨Nat.le_refl i, by omega, hob, fun j h1 h2 => absurd h2 (by omega)⟩
        · rintro ⟨h1, h2, h3, h4⟩
          have hk : k = i := by
            by_contra hne
            exact hob (h4 i (Nat.le_refl i) (by omega))
          subst hk
          rfl

/-- The poll loop times out exactly when every in-budget observation is
empty. -/
theorem pollOrganization_timeout_iff (obs : Nat → String) :
    ∀ (fuel i : Nat),
      pollOrganization obs fuel i = .error .timeout ↔
        ∀ j, i ≤ j → j < i + fuel → obs j = "" := by
  intro fuel
  induction fuel with
  | zero =>
      intro i
      constructor
      · intro _ j h1 h2; omega
      · intro _; rfl
  | succ n ih =>
      intro i
      unfold pollOrganization
      by_cases hob : obs i = ""
      · have hb : (obs i == "") = true := by simpa using hob
        rw [if_pos hb, ih (i + 1)]
        constructor
        · intro h j h1 h2
          rcases Nat.eq_or_lt_of_le h1 with rfl | hlt
          · exact hob
          · exact h j hlt (by omega)
        · intro h j h1 h2
          exact h j (by omega) (by omega)
      · have hb : (obs i == "") = false := by simpa using hob
        rw [if_neg (by simp [hb])]
        constructor
        · intro h; cases h
        · intro h
          exact absurd (h i (Nat.le_refl i) (by omega)) hob

/-- C2: after the create step, `create organization` re-reads the new
organization until its `Status.Namespace` is non-empty: the command succeeds
exactly at the first poll observing a non-empty namespace within the
deadline's budget, times out exactly when every in-budget poll observes an
empty namespace, and its only store effect is the single created
organization. -/
theorem createOrganization_poll_spec (fuel : Nat) (obs : Nat → String) :
    (∀ k, pollOrganization obs fuel 0 = .ok k ↔
      (k < fuel ∧ obs k ≠ "" ∧ ∀ j < k, obs j = "")) ∧
    (pollOrganization obs fuel 0 = .error .timeout ↔ ∀ j < fuel, obs j = "") ∧
    (∀ (s : Store) (idNs name newID : String),
      (executeCreateOrganization s idNs name newID fuel obs).1 =
        pollOrganization obs fuel 0 ∧
      (executeCreateOrganization s idNs name newID fuel obs).2 =
        { s with organizations := s.organizations ++
            [{ name := newID, namespc := idNs, labels := [(nameLabel, name)],
               statusNamespace := "" }] }) := by
  refine ⟨?_, ?_, ?_⟩
  · intro k
    rw [pollOrganization_ok_iff]
    constructor
    · rintro ⟨-, h2, h3, h4⟩
      exact ⟨by omega, h3, fun j hj => h4 j (by omega) hj⟩
    · rintro ⟨h1, h2, h3⟩
      exact ⟨by omega, by omega, h2, fun j _ hj => h3 j hj⟩
  · rw [pollOrganization_timeout_iff]
    constructor
    · intro h j hj
      exact h j (by omega) (by omega)
    · intro h j _ hj
      exact h j (by omega)
  · intro s idNs name newID
    exact ⟨rfl, rfl⟩

/-- Witness for `createOrganization_poll_spec`: with a namespace first
observed at the second poll and three polls of budget, the loop succeeds at
index 1. -/
theorem createOrganization_poll_spec_witness :
    pollOrganization (fun i => if i == 1 then "org-ns" else "") 3 0 = .ok 1 :=
  ((createOrganization_poll_spec 3 (fun i => if i == 1 then "org-ns" else "")).1 1).mpr
    (by refine ⟨by omega, by decide, ?_⟩
        intro j hj
        interval_cases j
        · rfl)

/-! ## `main` -/

/-- `main` (`cmd/unicli/main.go` lines 53-56): run the root command; when it
returns an error, print it and exit with status 1, otherwise finish normally
(status 0).  The result pairs the exit status with the printed lines. -/
def mainRun (commandResult : Except String Unit) : Nat × List String :=
  match commandResult with
  | .error e => (1, [e])
  | .ok _ => (0, [])

/-- C7: whenever a subcommand returns an error, the program prints exactly
that error and exits non-zero; when every step succeeds it does not exit
through the error path. -/
theorem main_error_exit :
    (∀ msg : String, mainRun (.error msg) = (1, [msg])) ∧
    mainRun (.ok ()) = (0, []) ∧
    (∀ r : Except String Unit, (mainRun r).1 = 0 ↔ r = .ok ()) := by
  refine ⟨fun msg => rfl, rfl, ?_⟩
  intro r
  cases r with
  | error e => simp [mainRun]
  | ok u => cases u; simp [mainRun]

/-! ## Frame property of the read pipelines -/

/-- C4: the embedded `get` pipelines (`get clustermanager`, `get instance`,
`get sshkey`) only read from the store — their final store equals the
initial one for every invocation. -/
theorem getPipelines_frame (s : Store) (org : Option Organization)
    (proj : Option Project) (reg : Option Region) (cols : List String)
    (idNs regionNs ident : String) :
    (executeGetClusterManager s org idNs).2 = s ∧
    (executeGetInstance s org proj reg cols idNs regionNs).2 = s ∧
    (executeGetSshkey s regionNs ident).2 = s := by
  refine ⟨?_, ?_, ?_⟩
  · unfold executeGetClusterManager
    simp only [listNamespacesOp]
    rw [gatherClusterManagers_eq]
    rfl
  · unfold executeGetInstance
    simp only [listNamespacesOp]
    rw [gatherComputeInstances_eq]
    rfl
  · unfold executeGetSshkey
    dsimp only
    cases hres : resolveClusterID (CreateKubernetesClusterNameMap s "" "").1 ident with
    | error e => rfl
    | ok resolvedID =>
        cases hf : (listOpenstackIdentitiesOp
            (CreateKubernetesClusterNameMap s "" "").2 regionNs).1.find?
            (fun r => trimPrefix (labelValue r.labels nameLabel)
              "kubernetes-cluster-" == resolvedID) with
        | none =>
            dsimp only
            rw [hf]
            rfl
        | some idn =>
            dsimp only
            rw [hf]
            rfl

end Unicli
